import Mathlib

/-!
Verification of the go-baton JSON operation protocol compiler.

The definitions below are a shallow embedding of the Go source: the
parsing package (key resolution, path assembly, AVU extraction), the
metadata query compiler, the metadata mutation dispatcher, and the get
handler.  External collaborator calls (the iRODS client) are modelled
as oracle parameters; the value returned by each handler together with
the list of collaborator calls it made is the observable behaviour.
-/

/-- A JSON value as decoded by encoding/json in Go: absent map entries
surface as the nil interface, which this model folds into null. -/
inductive JSONValue where
  | null : JSONValue
  | bool : Bool → JSONValue
  | num : Int → JSONValue
  | str : String → JSONValue
  | arr : List JSONValue → JSONValue
  | obj : List (String × JSONValue) → JSONValue

/-- The untyped document: a JSON object, keys unique (Go map). -/
def JSONObject : Type := List (String × JSONValue)

/-- The error taxonomy of the program: parsing.ErrMissingKey,
ErrMissingArgument, ErrInvalidArgument, json unmarshal type errors, and
errors surfaced by the external collaborator (with the iRODS code). -/
inductive GoError where
  | missingKey : GoError
  | missingArgument : GoError
  | invalidArgument : GoError
  | unmarshalType : GoError
  | collaborator : Int → GoError
deriving DecidableEq, Repr

/-- Go map access object[key]: the nil interface (null) when absent. -/
def getKey (o : JSONObject) (k : String) : JSONValue :=
  match o with
  | [] => JSONValue.null
  | (k2, v) :: rest => if k = k2 then v else getKey rest k

/-- parsing.ExtractJSONValue at target shape string: the value is
re-marshalled and unmarshalled into a string variable.  JSON null
leaves the target unchanged (its zero value, the empty string); a JSON
string is stored; any other shape is an unmarshal type error, not a
coercion. -/
def extractStringValue : JSONValue → Except GoError String
  | JSONValue.null => Except.ok ""
  | JSONValue.str s => Except.ok s
  | _ => Except.error GoError.unmarshalType

/-- parsing.ExtractJSONValue at target shape list: null leaves the nil
slice (zero iterations), an array is stored, anything else fails. -/
def extractListValue : JSONValue → Except GoError (List JSONValue)
  | JSONValue.null => Except.ok []
  | JSONValue.arr xs => Except.ok xs
  | _ => Except.error GoError.unmarshalType

/-- parsing.ExtractJSONValue at target shape map: null leaves the nil
map (no keys), an object is stored, anything else fails. -/
def extractObjectValue : JSONValue → Except GoError JSONObject
  | JSONValue.null => Except.ok []
  | JSONValue.obj fs => Except.ok fs
  | _ => Except.error GoError.unmarshalType

/-- parsing.getStringValue (current version): extract the canonical
key; if the result is empty, extract the short key; if still empty the
field is missing (ErrMissingKey). -/
def getStringValue (object : JSONObject) (key short_key : String) :
    Except GoError String :=
  match extractStringValue (getKey object key) with
  | Except.error e => Except.error e
  | Except.ok v1 =>
    match (if v1 = "" then extractStringValue (getKey object short_key)
           else Except.ok v1) with
    | Except.error e => Except.error e
    | Except.ok v2 =>
      if v2 = "" then Except.error GoError.missingKey else Except.ok v2

/-- Pattern used by GetAVUValues and GetAVUQuery: a missing key is
tolerated (the empty string that getStringValue returned is kept);
other errors propagate. -/
def getOptionalStringValue (object : JSONObject) (key short_key : String) :
    Except GoError String :=
  match getStringValue object key short_key with
  | Except.ok v => Except.ok v
  | Except.error GoError.missingKey => Except.ok ""
  | Except.error e => Except.error e

def GetCollectionValue (object : JSONObject) : Except GoError String :=
  getStringValue object "collection" "coll"

def GetDataObjectValue (object : JSONObject) : Except GoError String :=
  getStringValue object "data_object" "obj"

def GetDirectoryValue (object : JSONObject) : Except GoError String :=
  getStringValue object "directory" "dir"

def GetFileValue (object : JSONObject) : Except GoError String :=
  getStringValue object "file" ""

/-- The forward slash character. -/
def slash : Char := Char.ofNat 47

/-- Split a character list on the slash character. -/
def splitSlashAux : List Char → List (List Char)
  | [] => [[]]
  | c :: rest =>
    let r := splitSlashAux rest
    if c = slash then [] :: r
    else
      match r with
      | [] => [[c]]
      | g :: gs => (c :: g) :: gs

def splitSlash (s : String) : List String :=
  (splitSlashAux s.data).map (fun cs => String.mk cs)

def joinSlash : List String → String
  | [] => ""
  | [s] => s
  | s :: rest => s ++ "/" ++ joinSlash rest

/-- One step of path/filepath.Clean segment processing, accumulator in
reverse order: empty and dot segments vanish, dot-dot pops the previous
segment (kept literally when relative and nothing to pop). -/
def cleanSegStep (rooted : Bool) (acc : List String) (seg : String) :
    List String :=
  if seg = "" ∨ seg = "." then acc
  else if seg = ".." then
    match acc with
    | [] => if rooted then [] else [".."]
    | a :: rest => if a = ".." then ".." :: a :: rest else rest
  else seg :: acc

/-- filepath.Clean for forward-slash paths as used by the program. -/
def cleanPath (path : String) : String :=
  if path = "" then "."
  else
    let rooted : Bool :=
      match path.data with
      | c :: _ => c == slash
      | [] => false
    let acc := (splitSlash path).foldl (cleanSegStep rooted) []
    let body := joinSlash acc.reverse
    if rooted then
      (if body = "" then "/" else "/" ++ body)
    else
      (if body = "" then "." else body)

/-- parsing.GetiRODSPathValue: collection fragment required, object
fragment optional; the joined path is cleaned. -/
def GetiRODSPathValue (object : JSONObject) : Except GoError String :=
  match GetCollectionValue object with
  | Except.error e => Except.error e
  | Except.ok coll =>
    match GetDataObjectValue object with
    | Except.error GoError.missingKey => Except.ok (cleanPath coll)
    | Except.error e => Except.error e
    | Except.ok obj => Except.ok (cleanPath (coll ++ "/" ++ obj))

/-- parsing.GetLocalPathValue: directory fragment required, file
fragment optional. -/
def GetLocalPathValue (object : JSONObject) : Except GoError String :=
  match GetDirectoryValue object with
  | Except.error e => Except.error e
  | Except.ok dir =>
    match GetFileValue object with
    | Except.error GoError.missingKey => Except.ok (cleanPath dir)
    | Except.error e => Except.error e
    | Except.ok file => Except.ok (cleanPath (dir ++ "/" ++ file))

/-- parsing.GetAVUsList: extract the avus entry into a slice; an
absent key yields the nil slice with no error. -/
def GetAVUsList (object : JSONObject) : Except GoError (List JSONValue) :=
  extractListValue (getKey object "avus")

/-- parsing.GetAVUValues: attribute is required; value and units
tolerate a missing key (the empty string is kept). -/
def GetAVUValues (object : JSONObject) :
    Except GoError (String × String × String) :=
  match getStringValue object "attribute" "a" with
  | Except.error e => Except.error e
  | Except.ok attr =>
    match getOptionalStringValue object "value" "v" with
    | Except.error e => Except.error e
    | Except.ok value =>
      match getOptionalStringValue object "units" "u" with
      | Except.error e => Except.error e
      | Except.ok units => Except.ok (attr, value, units)

/-- parsing.GetAVUQuery: attribute and value from GetAVUValues, then
the operator key, which also tolerates a missing key: the operator
variable is then left as the empty string. -/
def GetAVUQuery (object : JSONObject) :
    Except GoError (String × String × String) :=
  match GetAVUValues object with
  | Except.error e => Except.error e
  | Except.ok (attr, value, _) =>
    match getOptionalStringValue object "operator" "o" with
    | Except.error e => Except.error e
    | Except.ok op => Except.ok (attr, value, op)

/-- go-irodsclient common constants: catalog column numbers, the zone
keyword, the page size, and the no-rows-found catalog error code. -/
def ICAT_COLUMN_COLL_NAME : Nat := 501

def ICAT_COLUMN_DATA_NAME : Nat := 403

def ICAT_COLUMN_META_DATA_ATTR_NAME : Nat := 600

def ICAT_COLUMN_META_DATA_ATTR_VALUE : Nat := 601

def ICAT_COLUMN_META_COLL_ATTR_NAME : Nat := 610

def ICAT_COLUMN_META_COLL_ATTR_VALUE : Nat := 611

def ZONE_KW : String := "zone"

def MaxQueryRows : Nat := 500

def CAT_NO_ROWS_FOUND : Int := -808000

/-- parsing.MetaQueryColumns: the per-target-class column choices. -/
structure MetaQueryColumns where
  AttributeCondition : Nat
  ValueCondition : Nat
  ReturnColumns : List Nat
  JSONKeys : List String

/-- message.IRODSMessageQueryRequest as assembled by BuildMetaQuery:
key-value scoping pairs, selected columns (with aggregation value 1),
and ordered column conditions. -/
structure IRODSMessageQueryRequest where
  maxRows : Nat
  keyVals : List (String × String)
  selects : List (Nat × Nat)
  conditions : List (Nat × String)

/-- The single-quote character, written via its code point. -/
def quoteStr : String := String.singleton (Char.ofNat 39)

/-- The attribute condition string of BuildMetaQuery: literal splicing
of the attribute between single quotes after an equals sign. -/
def attrCond (attr : String) : String := "= " ++ quoteStr ++ attr ++ quoteStr

/-- The value condition string of BuildMetaQuery: the operator text,
a space, then the value spliced between single quotes. -/
def valCond (op val : String) : String := op ++ " " ++ quoteStr ++ val ++ quoteStr

/-- Per-element descriptor resolution inside the BuildMetaQuery loop:
decode the element into a map, then GetAVUQuery. -/
def avuQuery (avu : JSONValue) : Except GoError (String × String × String) :=
  match extractObjectValue avu with
  | Except.error e => Except.error e
  | Except.ok o => GetAVUQuery o

/-- The condition list accumulated by the BuildMetaQuery loop: one
attribute-name condition and one value condition per descriptor, in
iteration order. -/
def buildConditions (cols : MetaQueryColumns) :
    List JSONValue → Except GoError (List (Nat × String))
  | [] => Except.ok []
  | avu :: rest =>
    match avuQuery avu with
    | Except.error e => Except.error e
    | Except.ok (attr, val, op) =>
      match buildConditions cols rest with
      | Except.error e => Except.error e
      | Except.ok cs =>
        Except.ok ((cols.AttributeCondition, attrCond attr) ::
          (cols.ValueCondition, valCond op val) :: cs)

/-- BuildMetaQuery: the zone keyword, one select per return column,
then the conditions compiled from the AVU list. -/
def BuildMetaQuery (avus : List JSONValue) (cols : MetaQueryColumns)
    (zone : String) : Except GoError IRODSMessageQueryRequest :=
  match buildConditions cols avus with
  | Except.error e => Except.error e
  | Except.ok cs =>
    Except.ok { maxRows := MaxQueryRows, keyVals := [(ZONE_KW, zone)],
                selects := cols.ReturnColumns.map (fun c => (c, 1)),
                conditions := cs }

/-- The collection-class column configuration built inside MetaQuery. -/
def collectionColumns : MetaQueryColumns :=
  { AttributeCondition := ICAT_COLUMN_META_COLL_ATTR_NAME,
    ValueCondition := ICAT_COLUMN_META_COLL_ATTR_VALUE,
    ReturnColumns := [ICAT_COLUMN_COLL_NAME],
    JSONKeys := ["collection"] }

/-- The data-object-class column configuration built inside MetaQuery. -/
def objectColumns : MetaQueryColumns :=
  { AttributeCondition := ICAT_COLUMN_META_DATA_ATTR_NAME,
    ValueCondition := ICAT_COLUMN_META_DATA_ATTR_VALUE,
    ReturnColumns := [ICAT_COLUMN_COLL_NAME, ICAT_COLUMN_DATA_NAME],
    JSONKeys := ["collection", "data_object"] }

/-- A query response from the catalog connection, as observed through
CheckError (the result code) and the decoded rows. -/
structure QueryResponse where
  errorCode : Int
  rowCount : Nat
  rows : List (List String)

/-- Modelled from the spec: parsing.IRODSXMLToJSON is not under src.
Per the spec, each matching row becomes one output object holding the
resolved catalog path fragments under the configured JSON keys, and a
zero-row result produces an empty contribution to the merged result. -/
def IRODSXMLToJSON (resp : QueryResponse) (cols : MetaQueryColumns) :
    List JSONValue :=
  if resp.errorCode < 0 then []
  else (resp.rows.take resp.rowCount).map
    (fun row => JSONValue.obj (cols.JSONKeys.zip (row.map JSONValue.str)))

/-- One target-class block of MetaQuery: build the query, send it, and
treat the no-rows-found catalog code (and a zero row count) as success
with whatever rows decoded; any other negative code aborts. -/
def runClassQuery (avus : List JSONValue) (cols : MetaQueryColumns)
    (zone : String) (resp : QueryResponse) :
    Except GoError (IRODSMessageQueryRequest × List JSONValue) :=
  match BuildMetaQuery avus cols zone with
  | Except.error e => Except.error e
  | Except.ok query =>
    if resp.errorCode < 0 ∧ resp.errorCode ≠ CAT_NO_ROWS_FOUND then
      Except.error (GoError.collaborator resp.errorCode)
    else
      Except.ok (query, IRODSXMLToJSON resp cols)

/-- The scope defaulting at the top of MetaQuery: when neither flag is
set, both become true, to match the behaviour of baton. -/
def defaultScopes (collections objects : Bool) : Bool × Bool :=
  if !collections && !objects then (true, true)
  else (collections, objects)

/-- The observable behaviour of one MetaQuery invocation: the query
requests sent over the connection, in order, and the JSON written to
standard output at the end. -/
structure MetaQueryTrace where
  requests : List IRODSMessageQueryRequest
  output : List JSONValue

/-- irods.MetaQuery: default the scopes, extract the AVU list, then
run the collection-class query and the data-object-class query in that
order, merging their output contributions. -/
def MetaQuery (jsonContents : JSONObject) (zone : String)
    (collections objects : Bool) (collResp objResp : QueryResponse) :
    Except GoError MetaQueryTrace :=
  let scopes := defaultScopes collections objects
  match GetAVUsList jsonContents with
  | Except.error e => Except.error e
  | Except.ok avus =>
    match (if scopes.1 then
             match runClassQuery avus collectionColumns zone collResp with
             | Except.error e => Except.error e
             | Except.ok (q, out) => Except.ok ([q], out)
           else (Except.ok ([], []) :
             Except GoError (List IRODSMessageQueryRequest × List JSONValue))) with
    | Except.error e => Except.error e
    | Except.ok (reqs1, out1) =>
      match (if scopes.2 then
               match runClassQuery avus objectColumns zone objResp with
               | Except.error e => Except.error e
               | Except.ok (q, out) => Except.ok ([q], out)
             else (Except.ok ([], []) :
               Except GoError (List IRODSMessageQueryRequest × List JSONValue))) with
      | Except.error e => Except.error e
      | Except.ok (reqs2, out2) =>
        Except.ok { requests := reqs1 ++ reqs2, output := out1 ++ out2 }

/-- A call made against the external filesystem collaborator. -/
inductive CollabCall where
  | addMeta : String → String → String → String → CollabCall
  | delMeta : String → String → CollabCall
deriving DecidableEq, Repr

/-- The per-descriptor loop of irods.MetaMod: an add operation with a
non-empty value calls AddMetadata; a remove operation calls
DeleteMetadataByName; otherwise an empty value is ErrMissingKey,
checked as the loop reaches the descriptor.  The collaborator result
oracle decides whether each call succeeds; the first failure stops the
loop. -/
def metaModLoop (iPath operation : String)
    (collab : CollabCall → Except GoError Unit) :
    List JSONValue → List CollabCall × Except GoError Unit
  | [] => ([], Except.ok ())
  | m :: rest =>
    match extractObjectValue m with
    | Except.error e => ([], Except.error e)
    | Except.ok metaValue =>
      match GetAVUValues metaValue with
      | Except.error e => ([], Except.error e)
      | Except.ok (attr, value, units) =>
        if operation = "add" ∧ value ≠ "" then
          match collab (CollabCall.addMeta iPath attr value units) with
          | Except.error e => ([CollabCall.addMeta iPath attr value units],
              Except.error e)
          | Except.ok _ =>
            let r := metaModLoop iPath operation collab rest
            (CollabCall.addMeta iPath attr value units :: r.1, r.2)
        else if operation = "remove" ∨ operation = "rem" then
          match collab (CollabCall.delMeta iPath attr) with
          | Except.error e => ([CollabCall.delMeta iPath attr], Except.error e)
          | Except.ok _ =>
            let r := metaModLoop iPath operation collab rest
            (CollabCall.delMeta iPath attr :: r.1, r.2)
        else if value = "" then ([], Except.error GoError.missingKey)
        else metaModLoop iPath operation collab rest

/-- irods.MetaMod: validate the operation argument against the closed
set, resolve the catalog path and the AVU list, then run the loop. -/
def MetaMod (jsonContents : JSONObject) (operation : String)
    (collab : CollabCall → Except GoError Unit) :
    List CollabCall × Except GoError Unit :=
  if operation ≠ "add" ∧ operation ≠ "rem" then
    ([], Except.error GoError.missingArgument)
  else
    match GetiRODSPathValue jsonContents with
    | Except.error e => ([], Except.error e)
    | Except.ok iPath =>
      match GetAVUsList jsonContents with
      | Except.error e => ([], Except.error e)
      | Except.ok meta => metaModLoop iPath operation collab meta

/-- Modelled from the spec: parsing.GetiRODSPath is not under src
(only the older GetiRODSPathValue is).  Per the spec, it additionally
reports the path kind: Collection exactly when the data-object
fragment is absent. -/
def GetiRODSPath (object : JSONObject) : Except GoError (String × Bool) :=
  match GetCollectionValue object with
  | Except.error e => Except.error e
  | Except.ok coll =>
    match GetDataObjectValue object with
    | Except.error GoError.missingKey => Except.ok (cleanPath coll, true)
    | Except.error e => Except.error e
    | Except.ok obj => Except.ok (cleanPath (coll ++ "/" ++ obj), false)

/-- Modelled from the spec: parsing.GetLocalPath is not under src
(only the older GetLocalPathValue is).  Per the spec, it additionally
reports the local path kind: Directory exactly when the file fragment
is absent. -/
def GetLocalPath (object : JSONObject) : Except GoError (String × Bool) :=
  match GetDirectoryValue object with
  | Except.error e => Except.error e
  | Except.ok dir =>
    match GetFileValue object with
    | Except.error GoError.missingKey => Except.ok (cleanPath dir, true)
    | Except.error e => Except.error e
    | Except.ok file => Except.ok (cleanPath (dir ++ "/" ++ file), false)

/-- The observable behaviour of one Get invocation: the DownloadFile
calls made (catalog path, local path), the errors passed to the error
logger, and the returned outcome. -/
structure GetResult where
  calls : List (String × String)
  loggedErrors : List GoError
  outcome : Except GoError Unit

/-- irods.Get: resolve both paths; when the catalog path is a
collection and the local path is not a directory, the source assigns
ErrMissingKey to its err variable and logs it, but does not return, so
DownloadFile still runs and its result is what Get returns. -/
def Get (jsonContents : JSONObject)
    (downloadResult : Except GoError Unit) : GetResult :=
  match GetiRODSPath jsonContents with
  | Except.error e => { calls := [], loggedErrors := [e],
                        outcome := Except.error e }
  | Except.ok (iPath, coll) =>
    match GetLocalPath jsonContents with
    | Except.error e => { calls := [], loggedErrors := [e],
                          outcome := Except.error e }
    | Except.ok (lPath, dir) =>
      let logged := if coll && !dir then [GoError.missingKey] else []
      match downloadResult with
      | Except.error e => { calls := [(iPath, lPath)], loggedErrors := logged,
                            outcome := Except.error e }
      | Except.ok _ => { calls := [(iPath, lPath)], loggedErrors := logged,
                         outcome := Except.ok () }

/-- Number of single-quote characters in a string. -/
def quoteCount (s : String) : Nat :=
  (s.data.filter (fun c => c = Char.ofNat 39)).length

/-- The collection-class query compiled from an empty AVU list in
zone z, used by concrete witnesses. -/
def qcEmptyZ : IRODSMessageQueryRequest :=
  { maxRows := 500, keyVals := [("zone", "z")], selects := [(501, 1)],
    conditions := [] }

/-- The data-object-class query compiled from an empty AVU list in
zone z, used by concrete witnesses. -/
def qoEmptyZ : IRODSMessageQueryRequest :=
  { maxRows := 500, keyVals := [("zone", "z")],
    selects := [(501, 1), (403, 1)], conditions := [] }

/-- Helper: when every element of the AVU list resolves, the compiled
condition list exists and has exactly two conditions per element. -/
theorem buildConditions_ok (cols : MetaQueryColumns) :
    ∀ avus : List JSONValue,
    (∀ a ∈ avus, ∃ t, avuQuery a = Except.ok t) →
    ∃ cs, buildConditions cols avus = Except.ok cs ∧
      cs.length = 2 * avus.length := by
  intro avus
  induction avus with
  | nil => intro _; exact ⟨[], rfl, rfl⟩
  | cons a rest ih =>
    intro h
    obtain ⟨t, ht⟩ := h a (List.mem_cons_self a rest)
    obtain ⟨attr, val, op⟩ := t
    obtain ⟨cs, hcs, hlen⟩ := ih (fun b hb => h b (List.mem_cons_of_mem a hb))
    refine ⟨(cols.AttributeCondition, attrCond attr) ::
            (cols.ValueCondition, valCond op val) :: cs, ?_, ?_⟩
    · simp only [buildConditions, ht, hcs]
    · simp only [List.length_cons, hlen]
      omega

/-- Helper: the behaviour of MetaQuery when both scopes are on and
neither response carries a hard catalog failure. -/
theorem MetaQuery_run_ok (doc : JSONObject) (zone : String)
    (avus : List JSONValue) (qc qo : IRODSMessageQueryRequest)
    (collResp objResp : QueryResponse)
    (h : GetAVUsList doc = Except.ok avus)
    (hc : BuildMetaQuery avus collectionColumns zone = Except.ok qc)
    (ho : BuildMetaQuery avus objectColumns zone = Except.ok qo)
    (hcr : ¬(collResp.errorCode < 0 ∧ collResp.errorCode ≠ CAT_NO_ROWS_FOUND))
    (hor : ¬(objResp.errorCode < 0 ∧ objResp.errorCode ≠ CAT_NO_ROWS_FOUND)) :
    MetaQuery doc zone true true collResp objResp =
      Except.ok { requests := [qc, qo],
                  output := IRODSXMLToJSON collResp collectionColumns ++
                            IRODSXMLToJSON objResp objectColumns } := by
  simp only [MetaQuery, defaultScopes, runClassQuery, h, hc, ho]
  rw [if_neg hcr, if_neg hor]
  simp

/-- Claim C1: the claim states that an AVU descriptor with attribute
and value but no operator key compiles to the value condition equal to
an equals sign followed by the quoted value.  Evaluation of the source
at that input shows otherwise: GetAVUQuery swallows the missing-key
error and leaves the operator as the empty string, so BuildMetaQuery
emits a value condition with no operator and a leading space, not the
defaulted equals form that the in-source comment announces. -/
theorem C1_value_condition_empty_operator :
    GetAVUQuery [("attribute", JSONValue.str "project"),
                 ("value", JSONValue.str "alpha")] =
      Except.ok ("project", "alpha", "") ∧
    buildConditions collectionColumns
      [JSONValue.obj [("attribute", JSONValue.str "project"),
                      ("value", JSONValue.str "alpha")]] =
      Except.ok
        [(ICAT_COLUMN_META_COLL_ATTR_NAME,
          "= " ++ quoteStr ++ "project" ++ quoteStr),
         (ICAT_COLUMN_META_COLL_ATTR_VALUE,
          " " ++ quoteStr ++ "alpha" ++ quoteStr)] ∧
    (" " ++ quoteStr ++ "alpha" ++ quoteStr : String) ≠
      "= " ++ quoteStr ++ "alpha" ++ quoteStr := by
  refine ⟨rfl, rfl, ?_⟩
  decide

/-- Claim C2: the claim states that a get whose catalog path is a
collection and whose local path is a single file fails with
InvalidArgument before any download call.  Evaluation of the source at
that input shows otherwise: the handler assigns ErrMissingKey and logs
it but does not return, so DownloadFile is still called and the
handler reports success. -/
theorem C2_collection_get_into_file_downloads_anyway :
    Get [("collection", JSONValue.str "/z/home/u"),
         ("directory", JSONValue.str "/tmp"),
         ("file", JSONValue.str "f.txt")] (Except.ok ()) =
      { calls := [("/z/home/u", "/tmp/f.txt")],
        loggedErrors := [GoError.missingKey],
        outcome := Except.ok () } := rfl

/-- Claim C3: with operation add, a descriptor whose value resolved
empty (the key empty or absent) makes the dispatcher fail with
ErrMissingKey as the loop reaches that descriptor, with no collaborator
call for it, for any remaining batch; and MetaMod propagates this. -/
theorem C3_metamod_add_empty_value_missing_key :
    (∀ (iPath : String) (collab : CollabCall → Except GoError Unit)
       (d : JSONValue) (rest : List JSONValue) (o : JSONObject)
       (attr units : String),
       extractObjectValue d = Except.ok o →
       GetAVUValues o = Except.ok (attr, "", units) →
       metaModLoop iPath "add" collab (d :: rest) =
         ([], Except.error GoError.missingKey)) ∧
    (∀ (doc : JSONObject) (collab : CollabCall → Except GoError Unit)
       (iPath : String) (d : JSONValue) (rest : List JSONValue)
       (o : JSONObject) (attr units : String),
       GetiRODSPathValue doc = Except.ok iPath →
       GetAVUsList doc = Except.ok (d :: rest) →
       extractObjectValue d = Except.ok o →
       GetAVUValues o = Except.ok (attr, "", units) →
       MetaMod doc "add" collab = ([], Except.error GoError.missingKey)) := by
  have part1 : ∀ (iPath : String) (collab : CollabCall → Except GoError Unit)
      (d : JSONValue) (rest : List JSONValue) (o : JSONObject)
      (attr units : String),
      extractObjectValue d = Except.ok o →
      GetAVUValues o = Except.ok (attr, "", units) →
      metaModLoop iPath "add" collab (d :: rest) =
        ([], Except.error GoError.missingKey) := by
    intro iPath collab d rest o attr units h1 h2
    simp [metaModLoop, h1, h2]
  refine ⟨part1, ?_⟩
  intro doc collab iPath d rest o attr units hp hl h1 h2
  have hloop := part1 iPath collab d rest o attr units h1 h2
  simp [MetaMod, hp, hl, hloop]

/-- Claim C3 witness: a concrete document with one value-less AVU
descriptor under operation add. -/
theorem C3_witness :
    MetaMod [("collection", JSONValue.str "/z"),
      ("avus", JSONValue.arr [JSONValue.obj
        [("attribute", JSONValue.str "x")]])] "add"
      (fun _ => Except.ok ()) = ([], Except.error GoError.missingKey) :=
  C3_metamod_add_empty_value_missing_key.2 _ _ "/z"
    (JSONValue.obj [("attribute", JSONValue.str "x")]) []
    [("attribute", JSONValue.str "x")] "x" "" rfl rfl rfl rfl

/-- Claim C4 counterexample: a numeric JSON value in the collection
field is not coerced to its textual form; the unmarshal into a string
target fails, so field resolution reports an error rather than the
text 42. -/
theorem C4_counterexample :
    getStringValue [("collection", JSONValue.num 42)] "collection" "coll" =
      Except.error GoError.unmarshalType := rfl

/-- Claim C4 amended: a numeric or boolean JSON value sitting under
the canonical key of a string-expected field makes field resolution
fail with an unmarshal type error; it is rejected, not coerced. -/
theorem C4_numeric_or_bool_value_rejected (o : JSONObject)
    (key short_key : String)
    (h : (∃ n : Int, getKey o key = JSONValue.num n) ∨
         (∃ b : Bool, getKey o key = JSONValue.bool b)) :
    getStringValue o key short_key = Except.error GoError.unmarshalType := by
  rcases h with ⟨n, hn⟩ | ⟨b, hb⟩
  · simp [getStringValue, hn, extractStringValue]
  · simp [getStringValue, hb, extractStringValue]

/-- Claim C4 witness: the amended statement at a concrete document. -/
theorem C4_witness :
    getStringValue [("collection", JSONValue.num 7)] "collection" "coll" =
      Except.error GoError.unmarshalType :=
  C4_numeric_or_bool_value_rejected _ "collection" "coll" (Or.inl ⟨7, rfl⟩)

/-- Claim C5: when neither scope flag is set, MetaQuery behaves
exactly as with both flags set; and in that defaulted state, whenever
the AVU list extracts and both class queries compile and neither
response is a hard failure, both the collection-class query and the
data-object-class query are sent, in that order. -/
theorem C5_metaquery_scope_default :
    (∀ (doc : JSONObject) (zone : String) (collResp objResp : QueryResponse),
       MetaQuery doc zone false false collResp objResp =
         MetaQuery doc zone true true collResp objResp) ∧
    (∀ (doc : JSONObject) (zone : String) (avus : List JSONValue)
       (qc qo : IRODSMessageQueryRequest) (collResp objResp : QueryResponse),
       GetAVUsList doc = Except.ok avus →
       BuildMetaQuery avus collectionColumns zone = Except.ok qc →
       BuildMetaQuery avus objectColumns zone = Except.ok qo →
       ¬(collResp.errorCode < 0 ∧ collResp.errorCode ≠ CAT_NO_ROWS_FOUND) →
       ¬(objResp.errorCode < 0 ∧ objResp.errorCode ≠ CAT_NO_ROWS_FOUND) →
       MetaQuery doc zone false false collResp objResp =
         Except.ok { requests := [qc, qo],
                     output := IRODSXMLToJSON collResp collectionColumns ++
                               IRODSXMLToJSON objResp objectColumns }) := by
  have part1 : ∀ (doc : JSONObject) (zone : String)
      (collResp objResp : QueryResponse),
      MetaQuery doc zone false false collResp objResp =
        MetaQuery doc zone true true collResp objResp := by
    intro doc zone collResp objResp
    rfl
  refine ⟨part1, ?_⟩
  intro doc zone avus qc qo collResp objResp h hc ho hcr hor
  rw [part1 doc zone collResp objResp]
  exact MetaQuery_run_ok doc zone avus qc qo collResp objResp h hc ho hcr hor

/-- Claim C5 witness: a document with an empty AVU list, no scope
flags, and two benign responses. -/
theorem C5_witness :
    MetaQuery [("avus", JSONValue.arr [])] "z" false false
      { errorCode := 0, rowCount := 0, rows := [] }
      { errorCode := 0, rowCount := 0, rows := [] } =
      Except.ok { requests := [qcEmptyZ, qoEmptyZ], output := [] } :=
  C5_metaquery_scope_default.2 _ "z" [] qcEmptyZ qoEmptyZ _ _ rfl rfl rfl
    (by decide) (by decide)

/-- Claim C6: with both target classes requested, a collection-class
response carrying the no-rows-found catalog code, or a non-negative
code with zero rows, contributes nothing to the output and does not
abort: the data-object query is still sent and its contribution is the
whole output. -/
theorem C6_metaquery_no_rows_continues (doc : JSONObject) (zone : String)
    (avus : List JSONValue) (qc qo : IRODSMessageQueryRequest)
    (collResp objResp : QueryResponse)
    (h : GetAVUsList doc = Except.ok avus)
    (hc : BuildMetaQuery avus collectionColumns zone = Except.ok qc)
    (ho : BuildMetaQuery avus objectColumns zone = Except.ok qo)
    (hclr : collResp.errorCode = CAT_NO_ROWS_FOUND ∨
            (0 ≤ collResp.errorCode ∧ collResp.rowCount = 0))
    (hor : ¬(objResp.errorCode < 0 ∧ objResp.errorCode ≠ CAT_NO_ROWS_FOUND)) :
    IRODSXMLToJSON collResp collectionColumns = [] ∧
    MetaQuery doc zone true true collResp objResp =
      Except.ok { requests := [qc, qo],
                  output := IRODSXMLToJSON objResp objectColumns } := by
  have hcr : ¬(collResp.errorCode < 0 ∧
      collResp.errorCode ≠ CAT_NO_ROWS_FOUND) := by
    rcases hclr with h1 | ⟨h1, _⟩
    · rintro ⟨_, hne⟩
      exact hne h1
    · rintro ⟨hlt, _⟩
      omega
  have hempty : IRODSXMLToJSON collResp collectionColumns = [] := by
    rcases hclr with h1 | ⟨h1, h2⟩
    · have : collResp.errorCode < 0 := by
        rw [h1]
        decide
      simp [IRODSXMLToJSON, this]
    · simp [IRODSXMLToJSON, h2]
  refine ⟨hempty, ?_⟩
  rw [MetaQuery_run_ok doc zone avus qc qo collResp objResp h hc ho hcr hor,
    hempty]
  simp

/-- Claim C6 witness: an empty AVU list, a no-rows-found collection
response, and a one-row data-object response. -/
theorem C6_witness :
    IRODSXMLToJSON { errorCode := -808000, rowCount := 0, rows := [] }
      collectionColumns = [] ∧
    MetaQuery [("avus", JSONValue.arr [])] "z" true true
      { errorCode := -808000, rowCount := 0, rows := [] }
      { errorCode := 0, rowCount := 1, rows := [["/z/c", "f.txt"]] } =
      Except.ok { requests := [qcEmptyZ, qoEmptyZ],
                  output := [JSONValue.obj
                    [("collection", JSONValue.str "/z/c"),
                     ("data_object", JSONValue.str "f.txt")]] } :=
  C6_metaquery_no_rows_continues _ "z" [] qcEmptyZ qoEmptyZ _ _ rfl rfl rfl
    (Or.inl rfl) (by decide)

/-- Claim C7: when every element of an AVU list of length N resolves
to a descriptor, the compiled request has exactly 2N conditions, the
single zone keyword pair, and the fixed select columns of the target
class, whether or not operators are present. -/
theorem C7_avu_condition_count (avus : List JSONValue)
    (cols : MetaQueryColumns) (zone : String)
    (h : ∀ a ∈ avus, ∃ t, avuQuery a = Except.ok t) :
    (BuildMetaQuery avus cols zone).map
        (fun q => (q.conditions.length, q.keyVals, q.selects)) =
      Except.ok (2 * avus.length, [(ZONE_KW, zone)],
        cols.ReturnColumns.map (fun c => (c, 1))) := by
  obtain ⟨cs, hcs, hlen⟩ := buildConditions_ok cols avus h
  simp [BuildMetaQuery, Except.map, hcs, hlen]

/-- Claim C7 witness: two descriptors, one with an operator and one
without, against the collection class. -/
theorem C7_witness :
    (BuildMetaQuery
        [JSONValue.obj [("a", JSONValue.str "x"), ("v", JSONValue.str "y"),
                        ("o", JSONValue.str "like")],
         JSONValue.obj [("attribute", JSONValue.str "p"),
                        ("value", JSONValue.str "q")]]
        collectionColumns "z").map
        (fun q => (q.conditions.length, q.keyVals, q.selects)) =
      Except.ok (4, [("zone", "z")], [(501, 1)]) :=
  C7_avu_condition_count _ collectionColumns "z" (by
    intro a ha
    simp only [List.mem_cons, List.not_mem_nil, or_false] at ha
    rcases ha with rfl | rfl
    · exact ⟨("x", "y", "like"), rfl⟩
    · exact ⟨("p", "q", ""), rfl⟩)

/-- Claim C8: a document holding a non-empty value under only the
short alias key resolves to the same value as a document holding it
under only the canonical key. -/
theorem C8_short_key_alias (key short_key v : String)
    (hne : key ≠ short_key) (hv : v ≠ "") :
    getStringValue [(short_key, JSONValue.str v)] key short_key =
      Except.ok v ∧
    getStringValue [(key, JSONValue.str v)] key short_key = Except.ok v := by
  constructor
  · simp [getStringValue, getKey, extractStringValue, hne, hv]
  · simp [getStringValue, getKey, extractStringValue, hv]

/-- Claim C8 witness: the collection field with its coll alias. -/
theorem C8_witness :
    getStringValue [("coll", JSONValue.str "/seq")] "collection" "coll" =
      Except.ok "/seq" ∧
    getStringValue [("collection", JSONValue.str "/seq")] "collection"
      "coll" = Except.ok "/seq" :=
  C8_short_key_alias "collection" "coll" "/seq" (by decide) (by decide)

/-- Claim C9: a document without the avus key yields the empty AVU
list with no error; MetaMod then succeeds with zero collaborator
calls for either valid operation, and the query compiler produces a
request with no metadata conditions. -/
theorem C9_absent_avus_empty_list (doc : JSONObject)
    (h : getKey doc "avus" = JSONValue.null) :
    GetAVUsList doc = Except.ok [] ∧
    (∀ (operation : String) (collab : CollabCall → Except GoError Unit)
       (iPath : String), (operation = "add" ∨ operation = "rem") →
       GetiRODSPathValue doc = Except.ok iPath →
       MetaMod doc operation collab = ([], Except.ok ())) ∧
    (∀ (cols : MetaQueryColumns) (zone : String),
       BuildMetaQuery [] cols zone =
         Except.ok { maxRows := MaxQueryRows, keyVals := [(ZONE_KW, zone)],
                     selects := cols.ReturnColumns.map (fun c => (c, 1)),
                     conditions := [] }) := by
  have h0 : GetAVUsList doc = Except.ok [] := by
    simp [GetAVUsList, h, extractListValue]
  refine ⟨h0, ?_, ?_⟩
  · intro operation collab iPath hop hp
    rcases hop with rfl | rfl
    · simp [MetaMod, hp, h0, metaModLoop]
    · simp [MetaMod, hp, h0, metaModLoop]
  · intro cols zone
    rfl

/-- Claim C9 witness: a document with only a collection key. -/
theorem C9_witness :
    GetAVUsList [("collection", JSONValue.str "/z")] = Except.ok [] ∧
    MetaMod [("collection", JSONValue.str "/z")] "add"
      (fun _ => Except.ok ()) = ([], Except.ok ()) ∧
    BuildMetaQuery [] collectionColumns "z" = Except.ok qcEmptyZ := by
  have t := C9_absent_avus_empty_list [("collection", JSONValue.str "/z")] rfl
  exact ⟨t.1, t.2.1 "add" (fun _ => Except.ok ()) "/z" (Or.inl rfl) rfl,
    t.2.2 collectionColumns "z"⟩

/-- Claim C10: condition strings are produced by literal splicing with
no escaping: the compiled pair for any resolved descriptor is exactly
the equals-quoted attribute and the operator-space-quoted value; and a
value holding one single-quote character yields a value condition with
three quote characters, so it cannot parse as one quoted literal. -/
theorem C10_literal_splicing_injection :
    (∀ (o : JSONObject) (cols : MetaQueryColumns) (attr val op : String),
       GetAVUQuery o = Except.ok (attr, val, op) →
       buildConditions cols [JSONValue.obj o] =
         Except.ok
           [(cols.AttributeCondition,
             "= " ++ quoteStr ++ attr ++ quoteStr),
            (cols.ValueCondition,
             op ++ " " ++ quoteStr ++ val ++ quoteStr)]) ∧
    quoteCount ("a" ++ quoteStr ++ "b") = 1 ∧
    quoteCount (valCond "=" ("a" ++ quoteStr ++ "b")) ≠ 2 := by
  refine ⟨?_, rfl, by decide⟩
  intro o cols attr val op h
  simp [buildConditions, avuQuery, extractObjectValue, h, attrCond, valCond]

/-- Claim C10 witness: one descriptor with short keys and no operator,
against the data-object class. -/
theorem C10_witness :
    buildConditions objectColumns
      [JSONValue.obj [("a", JSONValue.str "x"), ("v", JSONValue.str "y")]] =
      Except.ok
        [(ICAT_COLUMN_META_DATA_ATTR_NAME,
          "= " ++ quoteStr ++ "x" ++ quoteStr),
         (ICAT_COLUMN_META_DATA_ATTR_VALUE,
          "" ++ " " ++ quoteStr ++ "y" ++ quoteStr)] :=
  C10_literal_splicing_injection.1
    [("a", JSONValue.str "x"), ("v", JSONValue.str "y")] objectColumns
    "x" "y" "" rfl
